import Mathlib

/-!
Verification of the mockup-feature rendering pipeline
(`src/mockup-feature/src/utils/pixiRenderer.js`,
`src/mockup-feature/src/utils/depthEstimation.js`,
`src/mockup-feature/src/App.jsx`).

Shallow embedding conventions:
* GLSL / JS floating-point arithmetic is embedded over `ℚ` (exact rationals);
  decimal literals such as `0.2` denote the exact rational the source text writes.
* Textures are functions `Vec2 → Vec4`; bitmaps are `List Px` of RGBA pixels.
* Canvas resampling / blur (`drawImage`, `ctx.filter = blur`) are graphics-API
  primitives: they are abstracted by quantifying over their output, and the
  pixel loops that follow them are embedded exactly.
* Asynchronous failure (`try/catch`, promise rejection) is embedded with
  `Option`: `none` = the awaited step threw.
-/

namespace MockupFeature

/-- GLSL `clamp(x, lo, hi) = min(max(x, lo), hi)`. -/
def glClamp (x lo hi : ℚ) : ℚ := min (max x lo) hi

/-- GLSL `mix(x, y, a) = x*(1-a) + y*a`. -/
def glMix (x y a : ℚ) : ℚ := x * (1 - a) + y * a

/-- A 2-component GLSL vector. -/
structure Vec2 where
  x : ℚ
  y : ℚ
deriving DecidableEq

/-- A 3-component GLSL vector (rgb). -/
structure Vec3 where
  r : ℚ
  g : ℚ
  b : ℚ
deriving DecidableEq

/-- A 4-component GLSL vector (rgba). -/
structure Vec4 where
  r : ℚ
  g : ℚ
  b : ℚ
  a : ℚ
deriving DecidableEq

/-- The `.rgb` swizzle of a `vec4`. -/
def Vec4.rgb (v : Vec4) : Vec3 := ⟨v.r, v.g, v.b⟩

/-- Componentwise product of two `vec3`s (GLSL `*` on vectors). -/
def Vec3.mul (u v : Vec3) : Vec3 := ⟨u.r * v.r, u.g * v.g, u.b * v.b⟩

/-- `vec3 * float` (componentwise scaling). -/
def Vec3.scale (u : Vec3) (s : ℚ) : Vec3 := ⟨u.r * s, u.g * s, u.b * s⟩

/-- `vec3 + float` (GLSL adds the scalar to every component). -/
def Vec3.addScalar (u : Vec3) (s : ℚ) : Vec3 := ⟨u.r + s, u.g + s, u.b + s⟩

/-- Componentwise `mix` on `vec3` with a scalar interpolant. -/
def Vec3.mix (u v : Vec3) (t : ℚ) : Vec3 :=
  ⟨glMix u.r v.r t, glMix u.g v.g t, glMix u.b v.b t⟩

/-- Componentwise `clamp` on `vec3`. -/
def Vec3.clamp (u : Vec3) (lo hi : ℚ) : Vec3 :=
  ⟨glClamp u.r lo hi, glClamp u.g lo hi, glClamp u.b lo hi⟩

/-- Componentwise `clamp` on `vec2` (for `warp = clamp(warp, 0.0, 1.0)`). -/
def Vec2.clamp (u : Vec2) (lo hi : ℚ) : Vec2 :=
  ⟨glClamp u.x lo hi, glClamp u.y lo hi⟩

/-- `vec2 + float` (GLSL adds the scalar to both components). -/
def Vec2.addScalar (u : Vec2) (s : ℚ) : Vec2 := ⟨u.x + s, u.y + s⟩

/-- The samplers and uniforms of `FabricWrapFilter`'s fragment shader
(`pixiRenderer.js`, constructor of `FabricWrapFilter`). -/
structure FragUniforms where
  uSampler : Vec2 → Vec4
  uDisp : Vec2 → Vec4
  uShadow : Vec2 → Vec4
  uHighlight : Vec2 → Vec4
  uDesign : Vec2 → Vec4
  uStrength : ℚ
  uShadowPower : ℚ
  uHighlightPower : ℚ

/-- The body of `main()` in the fragment shader of `FabricWrapFilter`
(`pixiRenderer.js` lines 40–73), transcribed statement by statement.
`vUV` is the varying texture coordinate; the returned `Vec4` is
`gl_FragColor`. -/
def fragmentShaderMain (u : FragUniforms) (vUV : Vec2) : Vec4 :=
  let base : Vec4 := u.uSampler vUV
  let composite : Vec3 := base.rgb
  let displacement : ℚ := (u.uDisp vUV).r
  let warp : Vec2 := vUV.addScalar ((displacement - 0.5) * u.uStrength * 0.2)
  let warp : Vec2 := warp.clamp 0 1
  let design : Vec4 := u.uDesign warp
  let composite : Vec3 :=
    if design.a > 0.1 then
      let fabricColor : Vec3 := base.rgb.mul design.rgb
      base.rgb.mix fabricColor (design.a * 0.8)
    else composite
  let shadow : ℚ := (u.uShadow vUV).r
  let highlight : ℚ := (u.uHighlight vUV).r
  let composite : Vec3 := composite.scale (1 - shadow * u.uShadowPower * 0.6)
  let composite : Vec3 := composite.addScalar (highlight * u.uHighlightPower * 0.4)
  let composite : Vec3 := composite.clamp 0 1
  ⟨composite.r, composite.g, composite.b, 1⟩

/-- Modelled from the spec (§4.3 `render()`): the per-pixel composite the
specification describes, written from the spec's words to be compared with
`fragmentShaderMain`. -/
def specRenderPixel (u : FragUniforms) (coord : Vec2) : Vec4 :=
  let B : Vec3 := (u.uSampler coord).rgb
  let D : ℚ := (u.uDisp coord).r
  let offset : ℚ := (D - 0.5) * u.uStrength * 0.2
  let sampleCoord : Vec2 :=
    ⟨glClamp (coord.x + offset) 0 1, glClamp (coord.y + offset) 0 1⟩
  let design : Vec4 := u.uDesign sampleCoord
  let composite : Vec3 :=
    if design.a > 0.1 then B.mix (B.mul design.rgb) (design.a * 0.8) else B
  let shadow : ℚ := (u.uShadow coord).r
  let highlight : ℚ := (u.uHighlight coord).r
  let composite : Vec3 := composite.scale (1 - shadow * u.uShadowPower * 0.6)
  let composite : Vec3 := composite.addScalar (highlight * u.uHighlightPower * 0.4)
  let final : Vec3 := composite.clamp 0 1
  ⟨final.r, final.g, final.b, 1⟩

/-- C1: for every output pixel, the fragment shader of `FabricWrapFilter`
computes exactly the composite the spec describes: base sampled, depth sampled
at the same coordinate, warp offset `(D − 0.5) × strength × 0.2`, design
sampled at the clamped (never wrapped) warped coordinate, blended iff its
alpha exceeds 0.1 as `mix(B, B × design.rgb, design.a × 0.8)`, then the
shadow/highlight passes, then the final clamp into [0,1]. -/
theorem fabricWrapFilter_renders_spec (u : FragUniforms) (vUV : Vec2) :
    fragmentShaderMain u vUV = specRenderPixel u vUV := by
  rfl

/-! ## Pixel buffers (`ImageData.data` viewed 4 bytes at a time) -/

/-- One RGBA pixel of a canvas `ImageData` buffer. Channel values are the
bytes `data[i] … data[i+3]` coerced into ℚ, so a well-formed pixel has each
channel in `[0, 255]`. -/
structure Px where
  r : ℚ
  g : ℚ
  b : ℚ
  a : ℚ
deriving DecidableEq

/-- The channels of `p` lie in the byte range `[0, 255]`. -/
def Px.inByteRange (p : Px) : Prop :=
  0 ≤ p.r ∧ p.r ≤ 255 ∧ 0 ≤ p.g ∧ p.g ≤ 255 ∧ 0 ≤ p.b ∧ p.b ≤ 255

instance (p : Px) : Decidable p.inByteRange := by
  unfold Px.inByteRange; infer_instance

/-! ## `processDepthMap` (depthEstimation.js, lines 149–188)

The resample to 1024×1024 and the 3px blur are canvas-API primitives
(`drawImage`, `ctx.filter`); the min/max normalization loop that follows
them is embedded exactly on the resulting pixel buffer, which we quantify
over. -/

/-- The first loop of `processDepthMap`: `min = Math.min(min, data[i])`
starting from `let min = 255`, reading the red channel as grayscale. -/
def depthMin (data : List Px) : ℚ :=
  data.foldl (fun m p => min m p.r) 255

/-- The first loop of `processDepthMap`: `max = Math.max(max, data[i])`
starting from `let max = 0`, reading the red channel as grayscale. -/
def depthMax (data : List Px) : ℚ :=
  data.foldl (fun m p => max m p.r) 0

/-- The body of the normalization loop:
`const normalized = (data[i] - min) / range * 255;
 data[i] = data[i+1] = data[i+2] = normalized;` (alpha untouched). -/
def normalizePx (mn range : ℚ) (p : Px) : Px :=
  let normalized := (p.r - mn) / range * 255
  ⟨normalized, normalized, normalized, p.a⟩

/-- The normalization stage of `processDepthMap`: compute global min/max of
the red channel, and rescale every pixel iff `range > 0`; otherwise the
buffer passes through unchanged. -/
def processDepthMapNormalize (data : List Px) : List Px :=
  let mn := depthMin data
  let mx := depthMax data
  let range := mx - mn
  if range > 0 then data.map (normalizePx mn range) else data

/-! ## `buildLightingMasksSimple` (pixiRenderer.js, lines 706–772) -/

/-- `Math.max(0, Math.min(1, x))`, as written in the mask loops. -/
def jsClamp01 (x : ℚ) : ℚ := max 0 (min 1 x)

/-- `const brightness = (0.299 * r + 0.587 * g + 0.114 * b) / 255`. -/
def brightnessOf (p : Px) : ℚ :=
  (0.299 * p.r + 0.587 * p.g + 0.114 * p.b) / 255

/-- The shadow-mask pixel written by the loop of `buildLightingMasksSimple`:
`shadowValue = Math.max(0, Math.min(1, 0.5 - brightness)) * 255`, replicated
across r,g,b, alpha copied from the source pixel. -/
def shadowPx (p : Px) : Px :=
  let shadowValue := jsClamp01 (0.5 - brightnessOf p) * 255
  ⟨shadowValue, shadowValue, shadowValue, p.a⟩

/-- The highlight-mask pixel written by the loop of
`buildLightingMasksSimple`:
`highlightValue = Math.max(0, Math.min(1, brightness - 0.5)) * 255`,
replicated across r,g,b, alpha copied from the source pixel. -/
def highlightPx (p : Px) : Px :=
  let highlightValue := jsClamp01 (brightnessOf p - 0.5) * 255
  ⟨highlightValue, highlightValue, highlightValue, p.a⟩

/-- `buildLightingMasksSimple`: over the base photo's pixel buffer, produce
the (shadow, highlight) mask buffers pixel by pixel. -/
def buildLightingMasksSimple (data : List Px) : List Px × List Px :=
  (data.map shadowPx, data.map highlightPx)

/-! ## Facts about the min/max folds of `processDepthMap` -/

lemma foldMin_le_init (data : List Px) (i : ℚ) :
    data.foldl (fun m p => min m p.r) i ≤ i := by
  induction data generalizing i with
  | nil => exact le_refl i
  | cons p rest ih =>
    calc rest.foldl (fun m q => min m q.r) (min i p.r) ≤ min i p.r := ih _
      _ ≤ i := min_le_left _ _

lemma foldMin_le_mem (data : List Px) (i : ℚ) (p : Px) (hp : p ∈ data) :
    data.foldl (fun m q => min m q.r) i ≤ p.r := by
  induction data generalizing i with
  | nil => cases hp
  | cons q rest ih =>
    rcases List.mem_cons.mp hp with h | h
    · subst h
      calc rest.foldl (fun m q => min m q.r) (min i p.r) ≤ min i p.r :=
            foldMin_le_init rest _
        _ ≤ p.r := min_le_right _ _
    · exact ih _ h

lemma foldMin_cases (data : List Px) (i : ℚ) :
    data.foldl (fun m p => min m p.r) i = i ∨
      ∃ p ∈ data, data.foldl (fun m p => min m p.r) i = p.r := by
  induction data generalizing i with
  | nil => exact Or.inl rfl
  | cons p rest ih =>
    rcases ih (min i p.r) with h | ⟨q, hq, hfq⟩
    · rcases min_choice i p.r with hmin | hmin
      · exact Or.inl (by rw [List.foldl_cons, h, hmin])
      · exact Or.inr ⟨p, List.mem_cons_self p rest, by rw [List.foldl_cons, h, hmin]⟩
    · exact Or.inr ⟨q, List.mem_cons_of_mem p hq, by rw [List.foldl_cons, hfq]⟩

lemma init_le_foldMax (data : List Px) (i : ℚ) :
    i ≤ data.foldl (fun m p => max m p.r) i := by
  induction data generalizing i with
  | nil => exact le_refl i
  | cons p rest ih =>
    calc i ≤ max i p.r := le_max_left _ _
      _ ≤ rest.foldl (fun m q => max m q.r) (max i p.r) := ih _

lemma mem_le_foldMax (data : List Px) (i : ℚ) (p : Px) (hp : p ∈ data) :
    p.r ≤ data.foldl (fun m q => max m q.r) i := by
  induction data generalizing i with
  | nil => cases hp
  | cons q rest ih =>
    rcases List.mem_cons.mp hp with h | h
    · subst h
      calc p.r ≤ max i p.r := le_max_right _ _
        _ ≤ rest.foldl (fun m q => max m q.r) (max i p.r) := init_le_foldMax rest _
    · exact ih _ h

lemma foldMax_cases (data : List Px) (i : ℚ) :
    data.foldl (fun m p => max m p.r) i = i ∨
      ∃ p ∈ data, data.foldl (fun m p => max m p.r) i = p.r := by
  induction data generalizing i with
  | nil => exact Or.inl rfl
  | cons p rest ih =>
    rcases ih (max i p.r) with h | ⟨q, hq, hfq⟩
    · rcases max_choice i p.r with hmax | hmax
      · exact Or.inl (by rw [List.foldl_cons, h, hmax])
      · exact Or.inr ⟨p, List.mem_cons_self p rest, by rw [List.foldl_cons, h, hmax]⟩
    · exact Or.inr ⟨q, List.mem_cons_of_mem p hq, by rw [List.foldl_cons, hfq]⟩

/-- Under byte-ranged data, a strictly positive range forces two pixels with
distinct red values (contrapositive of the uniform-input case). -/
lemma range_pos_nonuniform (data : List Px)
    (hb : ∀ p ∈ data, 0 ≤ p.r ∧ p.r ≤ 255)
    (hr : depthMin data < depthMax data) :
    ∃ p ∈ data, ∃ q ∈ data, p.r ≠ q.r := by
  rcases foldMin_cases data 255 with hmn | ⟨pm, hpm, hpmr⟩
  · rcases foldMax_cases data 0 with hmx | ⟨pM, hpM, hpMr⟩
    · rw [depthMin, depthMax, hmn, hmx] at hr; norm_num at hr
    · have : depthMax data ≤ 255 := by
        rw [depthMax, hpMr]; exact (hb pM hpM).2
      rw [depthMin, hmn] at hr; linarith
  · rcases foldMax_cases data 0 with hmx | ⟨pM, hpM, hpMr⟩
    · have : 0 ≤ depthMin data := by
        rw [depthMin, hpmr]; exact (hb pm hpm).1
      rw [depthMax, hmx] at hr; linarith
    · refine ⟨pm, hpm, pM, hpM, ?_⟩
      rw [depthMin, hpmr] at hr
      rw [depthMax, hpMr] at hr
      exact ne_of_lt hr

/-- C2: the normalization stage of `processDepthMap` (applied to the
resampled, blurred 1024×1024 buffer): with non-uniform data the output
attains 0 and 255, stays within [0,255], and replicates the normalized
value across all color channels; with uniform data (min = max) the rescale
is skipped and the buffer passes through unchanged. -/
theorem processDepthMap_minmax_normalization (data : List Px)
    (hb : ∀ p ∈ data, 0 ≤ p.r ∧ p.r ≤ 255) :
    ((∃ p ∈ data, ∃ q ∈ data, p.r ≠ q.r) →
      (∃ p ∈ processDepthMapNormalize data, p.r = 0) ∧
      (∃ p ∈ processDepthMapNormalize data, p.r = 255) ∧
      (∀ p ∈ processDepthMapNormalize data,
        0 ≤ p.r ∧ p.r ≤ 255 ∧ p.g = p.r ∧ p.b = p.r)) ∧
    ((∀ p ∈ data, ∀ q ∈ data, p.r = q.r) →
      processDepthMapNormalize data = data) := by
  constructor
  · rintro ⟨p, hp, q, hq, hne⟩
    have hmnp : depthMin data ≤ p.r := foldMin_le_mem data 255 p hp
    have hmnq : depthMin data ≤ q.r := foldMin_le_mem data 255 q hq
    have hmxp : p.r ≤ depthMax data := mem_le_foldMax data 0 p hp
    have hmxq : q.r ≤ depthMax data := mem_le_foldMax data 0 q hq
    have hlt : depthMin data < depthMax data := by
      rcases lt_or_gt_of_ne hne with h | h
      · linarith
      · linarith
    have hrange : (0 : ℚ) < depthMax data - depthMin data := by linarith
    have hout : processDepthMapNormalize data =
        data.map (normalizePx (depthMin data) (depthMax data - depthMin data)) := by
      simp only [processDepthMapNormalize]
      rw [if_pos hrange]
    rw [hout]
    refine ⟨?_, ?_, ?_⟩
    · -- the pixel attaining the minimum maps to 0
      rcases foldMin_cases data 255 with hmn | ⟨pm, hpm, hpmr⟩
      · exfalso
        have h255 : depthMax data ≤ 255 := by
          rcases foldMax_cases data 0 with hmx | ⟨pM, hpM, hpMr⟩
          · rw [depthMax, hmx]; norm_num
          · rw [depthMax, hpMr]; exact (hb pM hpM).2
        rw [depthMin, hmn] at hlt; linarith
      · refine ⟨normalizePx (depthMin data) (depthMax data - depthMin data) pm,
          List.mem_map_of_mem _ hpm, ?_⟩
        have : pm.r = depthMin data := by rw [depthMin, ← hpmr]
        simp [normalizePx, this]
    · -- the pixel attaining the maximum maps to 255
      rcases foldMax_cases data 0 with hmx | ⟨pM, hpM, hpMr⟩
      · exfalso
        have h0 : 0 ≤ depthMin data := by
          rcases foldMin_cases data 255 with hmn | ⟨pm, hpm, hpmr⟩
          · rw [depthMin, hmn]; norm_num
          · rw [depthMin, hpmr]; exact (hb pm hpm).1
        rw [depthMax, hmx] at hlt; linarith
      · refine ⟨normalizePx (depthMin data) (depthMax data - depthMin data) pM,
          List.mem_map_of_mem _ hpM, ?_⟩
        have hM : pM.r = depthMax data := by rw [depthMax, ← hpMr]
        have hne0 : depthMax data - depthMin data ≠ 0 := ne_of_gt hrange
        simp only [normalizePx, hM]
        rw [div_self hne0]
        norm_num
    · rintro p' hp'
      rcases List.mem_map.mp hp' with ⟨s, hs, rfl⟩
      have h1 : depthMin data ≤ s.r := foldMin_le_mem data 255 s hs
      have h2 : s.r ≤ depthMax data := mem_le_foldMax data 0 s hs
      refine ⟨?_, ?_, rfl, rfl⟩
      · have : 0 ≤ (s.r - depthMin data) / (depthMax data - depthMin data) :=
          div_nonneg (by linarith) (le_of_lt hrange)
        simp only [normalizePx]
        positivity
      · have hle1 : (s.r - depthMin data) / (depthMax data - depthMin data) ≤ 1 :=
          (div_le_one hrange).mpr (by linarith)
        have h0 : 0 ≤ (s.r - depthMin data) / (depthMax data - depthMin data) :=
          div_nonneg (by linarith) (le_of_lt hrange)
        simp only [normalizePx]
        nlinarith
  · intro huni
    have hnr : ¬ depthMax data - depthMin data > 0 := by
      intro hrange
      have hlt : depthMin data < depthMax data := by linarith
      rcases range_pos_nonuniform data hb hlt with ⟨p, hp, q, hq, hne⟩
      exact hne (huni p hp q hq)
    simp only [processDepthMapNormalize]
    rw [if_neg hnr]

/-- A concrete non-uniform depth buffer used to instantiate the C2 theorem. -/
def depthDataW : List Px := [⟨0, 0, 0, 255⟩, ⟨100, 120, 130, 255⟩]

/-- Witness for C2 at a concrete two-pixel non-uniform buffer. -/
theorem processDepthMap_minmax_normalization_witness :
    (∀ p ∈ depthDataW, 0 ≤ p.r ∧ p.r ≤ 255) ∧
    (((∃ p ∈ depthDataW, ∃ q ∈ depthDataW, p.r ≠ q.r) →
      (∃ p ∈ processDepthMapNormalize depthDataW, p.r = 0) ∧
      (∃ p ∈ processDepthMapNormalize depthDataW, p.r = 255) ∧
      (∀ p ∈ processDepthMapNormalize depthDataW,
        0 ≤ p.r ∧ p.r ≤ 255 ∧ p.g = p.r ∧ p.b = p.r)) ∧
    ((∀ p ∈ depthDataW, ∀ q ∈ depthDataW, p.r = q.r) →
      processDepthMapNormalize depthDataW = depthDataW)) :=
  ⟨by decide, processDepthMap_minmax_normalization depthDataW (by decide)⟩

/-! ## Lighting-mask theorems -/

/-- Byte-ranged channels put the perceived brightness in `[0, 1]`
(the BT.601 weights 0.299 + 0.587 + 0.114 sum to 1). -/
lemma brightnessOf_bounds (p : Px) (hb : p.inByteRange) :
    0 ≤ brightnessOf p ∧ brightnessOf p ≤ 1 := by
  obtain ⟨h1, h2, h3, h4, h5, h6⟩ := hb
  constructor
  · exact div_nonneg (by linarith) (by norm_num)
  · rw [brightnessOf, div_le_one (by norm_num : (0:ℚ) < 255)]
    linarith

/-- If `Math.max(0, Math.min(1, x)) * 255` is strictly positive then so
is `x`. -/
lemma jsClamp01_mul_pos {x : ℚ} (h : 0 < jsClamp01 x * 255) : 0 < x := by
  by_contra hx
  push_neg at hx
  have hm : min 1 x ≤ 0 := le_trans (min_le_right _ _) hx
  have h0 : jsClamp01 x = 0 := max_eq_left hm
  rw [h0] at h
  norm_num at h

/-- `Math.max(0, Math.min(1, x)) ≤ c` whenever `0 ≤ c` and `x ≤ c`. -/
lemma jsClamp01_le {x c : ℚ} (hc : 0 ≤ c) (hx : x ≤ c) : jsClamp01 x ≤ c :=
  max_le hc (le_trans (min_le_right _ _) hx)

/-- C3: `buildLightingMasksSimple` writes, for every base-photo pixel, the
brightness-derived shadow and highlight values (scaled to [0,255],
replicated across the color channels, alpha preserved), the brightness is a
deterministic luminance in [0,1], and for no pixel are the shadow and
highlight values simultaneously positive. -/
theorem lightingMasks_shadow_highlight_exclusive (data : List Px)
    (hb : ∀ p ∈ data, p.inByteRange) :
    buildLightingMasksSimple data = (data.map shadowPx, data.map highlightPx) ∧
    ∀ p ∈ data,
      (0 ≤ brightnessOf p ∧ brightnessOf p ≤ 1) ∧
      shadowPx p = ⟨jsClamp01 (0.5 - brightnessOf p) * 255,
                    jsClamp01 (0.5 - brightnessOf p) * 255,
                    jsClamp01 (0.5 - brightnessOf p) * 255, p.a⟩ ∧
      highlightPx p = ⟨jsClamp01 (brightnessOf p - 0.5) * 255,
                       jsClamp01 (brightnessOf p - 0.5) * 255,
                       jsClamp01 (brightnessOf p - 0.5) * 255, p.a⟩ ∧
      ¬(0 < (shadowPx p).r ∧ 0 < (highlightPx p).r) := by
  refine ⟨rfl, ?_⟩
  intro p hp
  refine ⟨brightnessOf_bounds p (hb p hp), rfl, rfl, ?_⟩
  rintro ⟨hs, hh⟩
  have h1 : 0 < 0.5 - brightnessOf p := jsClamp01_mul_pos hs
  have h2 : 0 < brightnessOf p - 0.5 := jsClamp01_mul_pos hh
  linarith

/-- A concrete pixel buffer (one dark, one bright pixel) instantiating C3. -/
def maskDataW : List Px := [⟨10, 20, 30, 40⟩, ⟨250, 250, 250, 255⟩]

/-- Witness for C3 at a concrete two-pixel buffer. -/
theorem lightingMasks_shadow_highlight_exclusive_witness :
    (∀ p ∈ maskDataW, p.inByteRange) ∧
    (buildLightingMasksSimple maskDataW =
      (maskDataW.map shadowPx, maskDataW.map highlightPx) ∧
    ∀ p ∈ maskDataW,
      (0 ≤ brightnessOf p ∧ brightnessOf p ≤ 1) ∧
      shadowPx p = ⟨jsClamp01 (0.5 - brightnessOf p) * 255,
                    jsClamp01 (0.5 - brightnessOf p) * 255,
                    jsClamp01 (0.5 - brightnessOf p) * 255, p.a⟩ ∧
      highlightPx p = ⟨jsClamp01 (brightnessOf p - 0.5) * 255,
                       jsClamp01 (brightnessOf p - 0.5) * 255,
                       jsClamp01 (brightnessOf p - 0.5) * 255, p.a⟩ ∧
      ¬(0 < (shadowPx p).r ∧ 0 < (highlightPx p).r)) :=
  ⟨by decide, lightingMasks_shadow_highlight_exclusive maskDataW (by decide)⟩

/-- C9: with byte-ranged source channels, every channel value the mask
loops write is at most 128 (indeed at most 127.5 = 0.5 × 255), and the
alpha channel of each mask pixel is copied verbatim from the source
pixel. -/
theorem lightingMasks_half_intensity_alpha (p : Px) (hb : p.inByteRange) :
    (shadowPx p).r ≤ 128 ∧ (shadowPx p).g ≤ 128 ∧ (shadowPx p).b ≤ 128 ∧
    (highlightPx p).r ≤ 128 ∧ (highlightPx p).g ≤ 128 ∧
    (highlightPx p).b ≤ 128 ∧
    (shadowPx p).a = p.a ∧ (highlightPx p).a = p.a := by
  obtain ⟨hL0, hL1⟩ := brightnessOf_bounds p hb
  have hs : jsClamp01 (0.5 - brightnessOf p) ≤ 0.5 :=
    jsClamp01_le (by norm_num) (by linarith)
  have hh : jsClamp01 (brightnessOf p - 0.5) ≤ 0.5 :=
    jsClamp01_le (by norm_num) (by linarith)
  have hs' : jsClamp01 (0.5 - brightnessOf p) * 255 ≤ 128 := by
    have := mul_le_mul_of_nonneg_right hs (by norm_num : (0:ℚ) ≤ 255)
    linarith
  have hh' : jsClamp01 (brightnessOf p - 0.5) * 255 ≤ 128 := by
    have := mul_le_mul_of_nonneg_right hh (by norm_num : (0:ℚ) ≤ 255)
    linarith
  exact ⟨hs', hs', hs', hh', hh', hh', rfl, rfl⟩

/-- Witness for C9 at a concrete mid-gray pixel. -/
theorem lightingMasks_half_intensity_alpha_witness :
    (Px.inByteRange ⟨200, 100, 50, 77⟩) ∧
    ((shadowPx ⟨200, 100, 50, 77⟩).r ≤ 128 ∧
     (shadowPx ⟨200, 100, 50, 77⟩).g ≤ 128 ∧
     (shadowPx ⟨200, 100, 50, 77⟩).b ≤ 128 ∧
     (highlightPx ⟨200, 100, 50, 77⟩).r ≤ 128 ∧
     (highlightPx ⟨200, 100, 50, 77⟩).g ≤ 128 ∧
     (highlightPx ⟨200, 100, 50, 77⟩).b ≤ 128 ∧
     (shadowPx ⟨200, 100, 50, 77⟩).a = (⟨200, 100, 50, 77⟩ : Px).a ∧
     (highlightPx ⟨200, 100, 50, 77⟩).a = (⟨200, 100, 50, 77⟩ : Px).a) :=
  ⟨by decide, lightingMasks_half_intensity_alpha ⟨200, 100, 50, 77⟩ (by decide)⟩

/-! ## `generateResults` (pixiRenderer.js, lines 360–454)

A design file is embedded by its `name` together with the outcome of the
decode → texture → render → capture sequence for it: `some image` if every
awaited step succeeded, `none` if any of them threw (the `catch
(designError)` branch). -/

/-- A design file as `generateResults` consumes it. -/
structure DesignFile where
  name : String
  capture : Option String
deriving DecidableEq

/-- One named result, as pushed onto `this.results`. -/
structure RenderResult where
  name : String
  image : String
deriving DecidableEq

/-- The hard-coded 1×1 transparent PNG pushed for a failed design. -/
def placeholderPng : String :=
  "data:image/png;base64,iVBORw0KGgoAAAANSUhEUgAAAAEAAAABCAYAAAAfFcSJAAAADUlEQVR42mNkYPhfDwAChwGA60e6kgAAAABJRU5ErkJggg=="

/-- The body of the `for` loop of `generateResults` for design number `i`
(0-based): on success push `Design ${i+1}: ${name}` with the captured
image; on any thrown error push `Design ${i+1}: ${name} (Failed)` with the
placeholder PNG and continue. -/
def renderOneDesign (i : Nat) (d : DesignFile) : RenderResult :=
  match d.capture with
  | some img => ⟨"Design " ++ toString (i + 1) ++ ": " ++ d.name, img⟩
  | none =>
    ⟨"Design " ++ toString (i + 1) ++ ": " ++ d.name ++ " (Failed)",
      placeholderPng⟩

/-- The `for` loop of `generateResults`, indexed from `i`. -/
def processDesigns (i : Nat) : List DesignFile → List RenderResult
  | [] => []
  | d :: rest => renderOneDesign i d :: processDesigns (i + 1) rest

/-- `generateResults(designFiles)`: first capture the unfiltered base
composite (pushed as `Original Mockup`), then run the loop over the design
files. `originalImage` is the captured unfiltered frame. -/
def generateResults (originalImage : String) (designs : List DesignFile) :
    List RenderResult :=
  ⟨"Original Mockup", originalImage⟩ :: processDesigns 0 designs

lemma processDesigns_length (designs : List DesignFile) (i : Nat) :
    (processDesigns i designs).length = designs.length := by
  induction designs generalizing i with
  | nil => rfl
  | cons d rest ih => simp [processDesigns, ih]

lemma processDesigns_getElem? (designs : List DesignFile) (k i : Nat)
    (hi : i < designs.length) :
    (processDesigns k designs)[i]? =
      some (renderOneDesign (k + i) (designs.get ⟨i, hi⟩)) := by
  induction designs generalizing k i with
  | nil => cases hi
  | cons d rest ih =>
    cases i with
    | zero => simp [processDesigns]
    | succ n =>
      have hn : n < rest.length := Nat.lt_of_succ_lt_succ hi
      have := ih (k + 1) n hn
      simpa [processDesigns, Nat.add_comm, Nat.add_assoc, Nat.add_left_comm]
        using this

/-- C4: over `K` design files in which exactly design `j` (0-based) fails
to decode or render, `generateResults` returns `K + 1` results; result
`j+1` is the substitute result — the fixed 1×1 transparent placeholder
named with the `(Failed)` suffix — and every other design's result is its
successful capture in input order (the batch is never aborted: the result
list always has an entry per design). -/
theorem generateResults_partial_failure
    (orig : String) (designs : List DesignFile) (j : Nat)
    (hj : j < designs.length)
    (hfail : (designs.get ⟨j, hj⟩).capture = none)
    (hok : ∀ i (hi : i < designs.length), i ≠ j →
      ((designs.get ⟨i, hi⟩).capture).isSome) :
    (generateResults orig designs).length = designs.length + 1 ∧
    (generateResults orig designs)[j + 1]? =
      some ⟨"Design " ++ toString (j + 1) ++ ": " ++ (designs.get ⟨j, hj⟩).name
              ++ " (Failed)", placeholderPng⟩ ∧
    (∀ i (hi : i < designs.length), i ≠ j →
      ∃ img, (designs.get ⟨i, hi⟩).capture = some img ∧
        (generateResults orig designs)[i + 1]? =
          some ⟨"Design " ++ toString (i + 1) ++ ": " ++ (designs.get ⟨i, hi⟩).name,
                img⟩) := by
  refine ⟨?_, ?_, ?_⟩
  · simp [generateResults, processDesigns_length]
  · have h := processDesigns_getElem? designs 0 j hj
    simp only [Nat.zero_add] at h
    rw [List.get_eq_getElem] at hfail
    simp [generateResults, h, renderOneDesign, hfail]
  · intro i hi hne
    obtain ⟨img, himg⟩ := Option.isSome_iff_exists.mp (hok i hi hne)
    refine ⟨img, himg, ?_⟩
    have h := processDesigns_getElem? designs 0 i hi
    simp only [Nat.zero_add] at h
    rw [List.get_eq_getElem] at himg
    simp [generateResults, h, renderOneDesign, himg]

/-- A concrete batch for C4: three designs, the middle one corrupt. -/
def designsW : List DesignFile :=
  [⟨"a.png", some "imgA"⟩, ⟨"bad.png", none⟩, ⟨"c.png", some "imgC"⟩]

/-- Witness for C4: three designs with the middle one failing yield four
results, the failed slot carrying the placeholder. -/
theorem generateResults_partial_failure_witness :
    (1 < designsW.length) ∧
    ((generateResults "base" designsW).length = designsW.length + 1 ∧
    (generateResults "base" designsW)[1 + 1]? =
      some ⟨"Design " ++ toString (1 + 1) ++ ": " ++ (designsW.get ⟨1, by decide⟩).name
              ++ " (Failed)", placeholderPng⟩ ∧
    (∀ i (hi : i < designsW.length), i ≠ 1 →
      ∃ img, (designsW.get ⟨i, hi⟩).capture = some img ∧
        (generateResults "base" designsW)[i + 1]? =
          some ⟨"Design " ++ toString (i + 1) ++ ": " ++ (designsW.get ⟨i, hi⟩).name,
                img⟩)) :=
  ⟨by decide,
    generateResults_partial_failure "base" designsW 1 (by decide) (by decide)
      (by decide)⟩

/-- C5 counterexample: on the empty design list `generateResults` returns
exactly one result, but its name is `"Original Mockup"`, not `"Original"`
as the claim states. -/
theorem generateResults_empty_name_counterexample :
    (generateResults "base" []).map RenderResult.name = ["Original Mockup"] ∧
    ("Original Mockup" : String) ≠ "Original" :=
  ⟨rfl, by decide⟩

/-- C5 (amended): `generateResults` on the empty design list returns
exactly one result — the base composite captured with the filter removed —
and it is named `"Original Mockup"`. -/
theorem generateResults_empty (orig : String) :
    generateResults orig [] = [⟨"Original Mockup", orig⟩] := rfl

/-! ## `handleMouseMove` (App.jsx, lines 493–517)

Pointer coordinates, the recorded drag offset, container dimensions
(`offsetWidth`/`offsetHeight`) and the placement rectangle are embedded
over ℚ. `x`/`y` are the pointer position already translated into container
coordinates (`event.clientX - rect.left`, `event.clientY - rect.top`). -/

/-- The Dragging branch of `handleMouseMove`:
`newX = Math.max(0, Math.min(x - dragOffset.x, container.offsetWidth - designSize.width))`
and likewise for `newY`; the pair is the new `designPosition`. -/
def dragNewPosition (x y offX offY contW contH desW desH : ℚ) : ℚ × ℚ :=
  (max 0 (min (x - offX) (contW - desW)),
   max 0 (min (y - offY) (contH - desH)))

/-- The Resizing branch of `handleMouseMove`:
`newWidth = Math.max(50, x - designPosition.x)` then
`constrainedWidth = Math.min(newWidth, container.offsetWidth - designPosition.x)`
and likewise for the height; the pair is the new `designSize`. -/
def resizeNewSize (x y posX posY contW contH : ℚ) : ℚ × ℚ :=
  (min (max 50 (x - posX)) (contW - posX),
   min (max 50 (y - posY)) (contH - posY))

/-- C6: while Dragging, the new origin is the componentwise clamp of
`pointer − offset` into `[0, containerSize − placementSize]`; whenever the
placement fits inside the container on both axes, the resulting origin lies
in `[0, containerSize − placementSize]` on both axes, for any pointer
input. -/
theorem dragging_clamps_origin (x y offX offY contW contH desW desH : ℚ)
    (hw : desW ≤ contW) (hh : desH ≤ contH) :
    dragNewPosition x y offX offY contW contH desW desH =
      (glClamp (x - offX) 0 (contW - desW),
       glClamp (y - offY) 0 (contH - desH)) ∧
    0 ≤ (dragNewPosition x y offX offY contW contH desW desH).1 ∧
    (dragNewPosition x y offX offY contW contH desW desH).1 ≤ contW - desW ∧
    0 ≤ (dragNewPosition x y offX offY contW contH desW desH).2 ∧
    (dragNewPosition x y offX offY contW contH desW desH).2 ≤ contH - desH := by
  have hw' : (0:ℚ) ≤ contW - desW := by linarith
  have hh' : (0:ℚ) ≤ contH - desH := by linarith
  refine ⟨?_, le_max_left _ _,
    max_le hw' (min_le_right _ _), le_max_left _ _,
    max_le hh' (min_le_right _ _)⟩
  have e1 : max 0 (min (x - offX) (contW - desW)) =
      glClamp (x - offX) 0 (contW - desW) := by
    rw [glClamp, max_min_distrib_left, max_eq_right hw', max_comm]
  have e2 : max 0 (min (y - offY) (contH - desH)) =
      glClamp (y - offY) 0 (contH - desH) := by
    rw [glClamp, max_min_distrib_left, max_eq_right hh', max_comm]
  rw [dragNewPosition, e1, e2]

/-- Witness for C6: a pointer far outside a 800×600 container, with a
100×80 placement, still lands inside the container. -/
theorem dragging_clamps_origin_witness :
    ((100:ℚ) ≤ 800 ∧ (80:ℚ) ≤ 600) ∧
    (dragNewPosition 5000 (-300) 10 20 800 600 100 80 =
      (glClamp (5000 - 10) 0 (800 - 100), glClamp (-300 - 20) 0 (600 - 80)) ∧
    0 ≤ (dragNewPosition 5000 (-300) 10 20 800 600 100 80).1 ∧
    (dragNewPosition 5000 (-300) 10 20 800 600 100 80).1 ≤ 800 - 100 ∧
    0 ≤ (dragNewPosition 5000 (-300) 10 20 800 600 100 80).2 ∧
    (dragNewPosition 5000 (-300) 10 20 800 600 100 80).2 ≤ 600 - 80) :=
  ⟨⟨by norm_num, by norm_num⟩,
    dragging_clamps_origin 5000 (-300) 10 20 800 600 100 80 (by norm_num)
      (by norm_num)⟩

/-- C7: while Resizing, the new size is the componentwise clamp of
`pointer − origin` into `[50, containerSize − origin]`; whenever the
origin leaves at least 50 units of room to the container edge on each
axis, the resulting size is at least 50×50 and never extends beyond the
container from the current origin, for any pointer input. -/
theorem resizing_clamps_size (x y posX posY contW contH : ℚ)
    (hw : 50 ≤ contW - posX) (hh : 50 ≤ contH - posY) :
    resizeNewSize x y posX posY contW contH =
      (glClamp (x - posX) 50 (contW - posX),
       glClamp (y - posY) 50 (contH - posY)) ∧
    50 ≤ (resizeNewSize x y posX posY contW contH).1 ∧
    (resizeNewSize x y posX posY contW contH).1 ≤ contW - posX ∧
    50 ≤ (resizeNewSize x y posX posY contW contH).2 ∧
    (resizeNewSize x y posX posY contW contH).2 ≤ contH - posY := by
  refine ⟨?_, le_min (le_max_left _ _) hw, min_le_right _ _,
    le_min (le_max_left _ _) hh, min_le_right _ _⟩
  rw [resizeNewSize, glClamp, glClamp, max_comm (50:ℚ) (x - posX),
    max_comm (50:ℚ) (y - posY)]

/-- Witness for C7: a pointer dragged up-left of the anchor still yields at
least the 50×50 minimum inside a 800×600 container. -/
theorem resizing_clamps_size_witness :
    ((50:ℚ) ≤ 800 - 200 ∧ (50:ℚ) ≤ 600 - 100) ∧
    (resizeNewSize (-40) 7000 200 100 800 600 =
      (glClamp (-40 - 200) 50 (800 - 200), glClamp (7000 - 100) 50 (600 - 100)) ∧
    50 ≤ (resizeNewSize (-40) 7000 200 100 800 600).1 ∧
    (resizeNewSize (-40) 7000 200 100 800 600).1 ≤ 800 - 200 ∧
    50 ≤ (resizeNewSize (-40) 7000 200 100 800 600).2 ∧
    (resizeNewSize (-40) 7000 200 100 800 600).2 ≤ 600 - 100) :=
  ⟨⟨by norm_num, by norm_num⟩,
    resizing_clamps_size (-40) 7000 200 100 800 600 (by norm_num) (by norm_num)⟩

/-- C10: the Dragging branch applies the lower bound after the upper bound
(`Math.max(0, Math.min(x − offset, containerSize − placementSize))`), so on
an axis where the placement exceeds the container (empty clamp interval)
the resulting origin coordinate is exactly 0, for every pointer input. -/
theorem dragging_oversized_origin_zero (x y offX offY contW contH desW desH : ℚ) :
    dragNewPosition x y offX offY contW contH desW desH =
      (max 0 (min (x - offX) (contW - desW)),
       max 0 (min (y - offY) (contH - desH))) ∧
    (contW - desW < 0 →
      (dragNewPosition x y offX offY contW contH desW desH).1 = 0) ∧
    (contH - desH < 0 →
      (dragNewPosition x y offX offY contW contH desW desH).2 = 0) := by
  refine ⟨rfl, ?_, ?_⟩
  · intro hneg
    have : min (x - offX) (contW - desW) ≤ 0 :=
      le_of_lt (lt_of_le_of_lt (min_le_right _ _) hneg)
    exact max_eq_left this
  · intro hneg
    have : min (y - offY) (contH - desH) ≤ 0 :=
      le_of_lt (lt_of_le_of_lt (min_le_right _ _) hneg)
    exact max_eq_left this

/-- Witness for C10: a 900×700 placement in a 800×600 container pins the
origin to (0,0) on both axes. -/
theorem dragging_oversized_origin_zero_witness :
    ((800:ℚ) - 900 < 0 ∧ (600:ℚ) - 700 < 0) ∧
    (dragNewPosition 123 456 7 8 800 600 900 700).1 = 0 ∧
    (dragNewPosition 123 456 7 8 800 600 900 700).2 = 0 :=
  ⟨⟨by norm_num, by norm_num⟩,
    (dragging_oversized_origin_zero 123 456 7 8 800 600 900 700).2.1
      (by norm_num),
    (dragging_oversized_origin_zero 123 456 7 8 800 600 900 700).2.2
      (by norm_num)⟩

/-! ## `getDepthMap` (depthEstimation.js, lines 6–18)

The network call to the external FAL.ai provider is a boundary: its
outcome is a parameter (`some bitmap` — the awaited chain through
`getDepthMapFAL` succeeded; `none` — any of its awaited steps threw:
non-ok response, missing `image.url` in the payload, failed depth-image
fetch, or a network error). `createFallbackDepthMap` only draws canvas
gradients from the image dimensions and always succeeds; its output is the
`fallbackBitmap` parameter. -/

/-- An `ImageBitmap`, abstract: only its identity matters here. -/
structure ImageBitmap where
  id : Nat
deriving DecidableEq

/-- The JavaScript value `getDepthMap` can resolve with: either a bare
`ImageBitmap`, or a `{bitmap, method}` record pairing the bitmap with a
string label of the method used (the shape the spec and the caller in
`App.jsx` line 105, `const { depthMap, method } = await getDepthMap(file)`,
expect). -/
inductive DepthResolution where
  | bareBitmap (b : ImageBitmap)
  | labelled (bitmap : ImageBitmap) (method : String)
deriving DecidableEq

/-- `getDepthMap`: try FAL.ai; on any thrown error fall through to the
local fallback generator; resolve with the resulting bitmap. Both `return`
statements resolve with the bare bitmap — neither wraps it in a
`{bitmap, method}` record. -/
def getDepthMap (falOutcome : Option ImageBitmap)
    (fallbackBitmap : ImageBitmap) : DepthResolution :=
  match falOutcome with
  | some b => .bareBitmap b
  | none => .bareBitmap fallbackBitmap

/-- The bitmap carried by a resolution. -/
def DepthResolution.bitmapOf : DepthResolution → ImageBitmap
  | .bareBitmap b => b
  | .labelled b _ => b

/-- The `method` field read off a resolution, as the caller's destructuring
does: a bare `ImageBitmap` has no such field (`undefined`). -/
def DepthResolution.methodOf : DepthResolution → Option String
  | .bareBitmap _ => none
  | .labelled _ m => some m

/-- C8 evidence: `getDepthMap` indeed never fails — it resolves with the
external provider's bitmap when that succeeds and with the local fallback
generator's bitmap otherwise — but for every outcome it resolves with the
bare bitmap, whose `method` field is absent, contradicting the
`{bitmap, method}` contract its own caller destructures. -/
theorem getDepthMap_total_but_unlabelled (falOutcome : Option ImageBitmap)
    (fallbackBitmap : ImageBitmap) :
    (getDepthMap falOutcome fallbackBitmap).bitmapOf =
      falOutcome.getD fallbackBitmap ∧
    (getDepthMap falOutcome fallbackBitmap).methodOf = none := by
  cases falOutcome <;>
    simp [getDepthMap, DepthResolution.bitmapOf, DepthResolution.methodOf]

end MockupFeature
